import Mathlib

/-!
Shallow embedding of the orchestration core of the autonomous i18n agent
(StateManager, ErrorHandler, DecisionEngine, RollbackTool and the
AutonomousAgent main loop), translated from the JavaScript sources.

Conventions of the embedding:
* JS strings are Lean `String`s; phases, tool names and actions stay strings
  exactly as in the source.
* A JS object field that may be `undefined` or `null` becomes an `Option`.
* ISO timestamp strings stored in task / failure records are abstracted away
  (no claim mentions them); the remaining record fields are kept verbatim.
* External effects (the Claude oracle, `fs`, `setTimeout`) are modelled as
  explicit inputs: the oracle's decision and each tool invocation's outcome
  are adversarial parameters of the loop, `sleep` is recorded as the number
  of milliseconds slept, and the file system is a map from paths to contents.
-/

namespace Agent

/-- ASCII code point after `toLowerCase` (the classifier's messages and
patterns are ASCII). -/
def lowerCode (c : Char) : Nat :=
  if 65 ≤ c.toNat && c.toNat ≤ 90 then c.toNat + 32 else c.toNat

/-- Case-insensitive character comparison (both sides lowercased). -/
def charEqCI (a b : Char) : Bool :=
  lowerCode a == lowerCode b

/-- `listStartsWithBy eq pat l`: `pat` is a prefix of `l` up to `eq`. -/
def listStartsWithBy (eq : Char → Char → Bool) : List Char → List Char → Bool
  | [], _ => true
  | _ :: _, [] => false
  | p :: ps, c :: cs => eq p c && listStartsWithBy eq ps cs

/-- `listHasSubBy eq pat l`: `pat` occurs contiguously inside `l` up to
`eq` (models JS `String.includes`). -/
def listHasSubBy (eq : Char → Char → Bool) (pat : List Char) : List Char → Bool
  | [] => listStartsWithBy eq pat []
  | c :: cs => listStartsWithBy eq pat (c :: cs) || listHasSubBy eq pat cs

/-- JS `message.toLowerCase().includes(pat)` for the classifier's
lowercase patterns: a case-insensitive substring test. -/
def strIncludes (s pat : String) : Bool :=
  listHasSubBy charEqCI pat.toList s.toList

/-- The JS value stored under `state.context.stringsFound`: initialised to the
empty array `[]`, later overwritten with a number by
`updateStateFromResult`.  `undef` stands for a missing key. -/
inductive SFVal
  | undef
  | num (n : Nat)
  | emptyArr
  deriving DecidableEq, Repr

/-- JS truthiness of a `stringsFound` value (`[]` is truthy, `0` is falsy). -/
def SFVal.truthy : SFVal → Bool
  | .undef => false
  | .num n => n != 0
  | .emptyArr => true

/-- JS `=== 0` on a `stringsFound` value. -/
def SFVal.eqZero : SFVal → Bool
  | .num 0 => true
  | _ => false

/-- JS `> 0` on a `stringsFound` value (`[] > 0` coerces to `0 > 0`, false). -/
def SFVal.gtZero : SFVal → Bool
  | .num n => n > 0
  | _ => false

/-- An entry of `state.completedTasks`: `{task, timestamp, phase}` with the
timestamp abstracted away. -/
structure CompletedTask where
  task : String
  phase : String
  deriving DecidableEq, Repr

/-- An entry of `state.failedAttempts[tool]`: `{error, timestamp, phase}`
with the timestamp abstracted away. -/
structure FailRec where
  error : String
  phase : String
  deriving DecidableEq, Repr

/-- A memory record `{data, timestamp, phase}` pushed by `addToMemory`. -/
structure MemoryRec where
  data : String
  phase : String
  deriving DecidableEq, Repr

/-- `state.memory` of `StateManager`. -/
structure Memory where
  successfulStrategies : List MemoryRec
  failedStrategies : List MemoryRec
  learnedPatterns : List MemoryRec
  deriving DecidableEq, Repr

/-- `state.context` of `StateManager`. -/
structure Ctx where
  filesToProcess : List String
  stringsFound : SFVal
  translationsNeeded : List String
  issues : List String
  validFiles : List String
  invalidFiles : List String
  deriving DecidableEq, Repr

/-- The fields of a tool result object that the orchestration loop, the goal
predicate or the fallback decision ever read.  Tool results are otherwise
free-form JS objects; `files`/`issues` use `Option` because the loop tests
their presence (`result.files`, `result.issues`), while the numeric fields
read as `0` when absent (JS `undefined > 0` is false, like `0 > 0`). -/
structure ToolResult where
  success : Bool := true
  files : Option (List String) := none
  stringsFound : Nat := 0
  issues : Option (List String) := none
  filesTransformed : Nat := 0
  stringsTranslated : Nat := 0
  validFiles : Nat := 0
  deriving DecidableEq, Repr

/-- `this.state` of `StateManager` (the single mutable aggregate).
`failedAttempts` is the JS object keyed by tool name, read with `|| []`. -/
structure AgentState where
  phase : String
  currentGoal : Option String
  targetLanguage : String
  completedTasks : List CompletedTask
  failedAttempts : String → List FailRec
  retryCount : Nat
  maxRetries : Nat
  context : Ctx
  searchResults : Option ToolResult
  analysisResults : Option ToolResult
  transformResults : Option ToolResult
  translateResults : Option ToolResult
  validateResults : Option ToolResult
  localeResults : Option ToolResult
  setupResults : Option ToolResult
  integrateResults : Option ToolResult
  memory : Memory

/-- The initial state built by `StateManager`'s constructor. -/
def initialState : AgentState where
  phase := "initializing"
  currentGoal := none
  targetLanguage := "es"
  completedTasks := []
  failedAttempts := fun _ => []
  retryCount := 0
  maxRetries := 3
  context :=
    { filesToProcess := []
      stringsFound := SFVal.emptyArr
      translationsNeeded := []
      issues := []
      validFiles := []
      invalidFiles := [] }
  searchResults := none
  analysisResults := none
  transformResults := none
  translateResults := none
  validateResults := none
  localeResults := none
  setupResults := none
  integrateResults := none
  memory := { successfulStrategies := [], failedStrategies := [], learnedPatterns := [] }

/-- `StateManager.addCompletedTask`. -/
def addCompletedTask (task : String) (s : AgentState) : AgentState :=
  { s with completedTasks := s.completedTasks ++ [{ task := task, phase := s.phase }] }

/-- `StateManager.recordFailedAttempt`: pushes one record onto the tool's
(sequence, creating it when absent). -/
def recordFailedAttempt (tool : String) (msg : String) (s : AgentState) : AgentState :=
  { s with
    failedAttempts := fun t =>
      if t = tool then s.failedAttempts tool ++ [{ error := msg, phase := s.phase }]
      else s.failedAttempts t }

/-- `StateManager.shouldRetry`: failure count below `maxRetries`. -/
def shouldRetry (tool : String) (s : AgentState) : Bool :=
  (s.failedAttempts tool).length < s.maxRetries

/-- `StateManager.getRetryCount`. -/
def getRetryCount (tool : String) (s : AgentState) : Nat :=
  (s.failedAttempts tool).length

/-- `StateManager.isGoalAchieved` (note: distinct from
`AutonomousAgent.isGoalAchieved`). -/
def smIsGoalAchieved (s : AgentState) : Bool :=
  s.phase == "completed"

/-- `StateManager.shouldStop`. -/
def shouldStop (s : AgentState) : Bool :=
  s.phase == "completed" || s.phase == "failed"

/-- `StateManager.setPhase`. -/
def setPhase (phase : String) (s : AgentState) : AgentState :=
  { s with phase := phase }

/-! ## ErrorHandler (`src/agent/error/ErrorHandler.js`) -/

/-- `ErrorHandler.categorizeError`: pure pattern match on the lowercased
message. -/
def categorizeError (msg : String) : String :=
  if strIncludes msg "syntax" || strIncludes msg "parse" then "syntax_error"
  else if strIncludes msg "not found" || strIncludes msg "missing" then "file_not_found"
  else if strIncludes msg "permission" || strIncludes msg "access" then "permission_error"
  else if strIncludes msg "network" || strIncludes msg "timeout" then "network_error"
  else if strIncludes msg "api" || strIncludes msg "claude" then "api_error"
  else if strIncludes msg "validation" || strIncludes msg "invalid" then "validation_error"
  else "unknown_error"

/-- The critical patterns of `ErrorHandler.isCriticalError`. -/
def criticalPatterns : List String :=
  ["cannot read property", "undefined is not a function", "syntax error",
   "permission denied", "disk space", "memory"]

/-- `ErrorHandler.isCriticalError`. -/
def isCriticalError (msg : String) : Bool :=
  criticalPatterns.any fun pat => strIncludes msg pat

/-- `ErrorHandler.calculateRetryDelay`: `Math.min(1000 * 2 ** retryCount, 8000)`. -/
def calculateRetryDelay (retryCount : Nat) : Nat :=
  min (1000 * 2 ^ retryCount) 8000

/-- `ErrorHandler.getAlternativeAction`: the fixed pipeline successor map,
defaulting to `'search'`. -/
def getAlternativeAction (toolName : String) : String :=
  match toolName with
  | "search" => "analyze"
  | "analyze" => "transform"
  | "transform" => "translate"
  | "translate" => "locale"
  | "locale" => "validate"
  | "validate" => "complete"
  | _ => "search"

/-- The object returned by `ErrorHandler.decideErrorHandling`:
`{strategy, action, reason, delay?}`. -/
structure HandlingStrategy where
  strategy : String
  action : String
  reason : String
  delay : Option Nat := none
  deriving DecidableEq, Repr

/-- `ErrorHandler.decideErrorHandling`: priority order
critical / retry / alternative / skip.  Its inputs are the fields of the
`errorAnalysis` object it destructures. -/
def decideErrorHandling (tool : String) (critical canRetry : Bool)
    (retryCount : Nat) : HandlingStrategy :=
  if critical then
    { strategy := "stop", action := "rollback", reason := "Critical error detected" }
  else if canRetry && retryCount < 3 then
    { strategy := "retry", action := tool
      reason := "Retry " ++ tool ++ " (attempt " ++ toString (retryCount + 1) ++ ")"
      delay := some (calculateRetryDelay retryCount) }
  else if retryCount ≥ 3 then
    { strategy := "alternative", action := getAlternativeAction tool
      reason := "Too many retries for " ++ tool ++ ", trying alternative" }
  else
    { strategy := "skip", action := "continue", reason := "Skipping " ++ tool ++ " due to error" }

/-- The object returned by `ErrorHandler.executeErrorHandling` to the caller;
`slept` records the milliseconds passed to `sleep` on the retry branch. -/
structure ErrResult where
  action : String
  stop : Bool := false
  retry : Bool := false
  alternative : Bool := false
  skipped : Bool := false
  unknown : Bool := false
  slept : Option Nat := none
  deriving DecidableEq, Repr

/-- `ErrorHandler.executeErrorHandling`. -/
def executeErrorHandling (strat : HandlingStrategy) : ErrResult :=
  match strat.strategy with
  | "retry" => { action := strat.action, retry := true, slept := strat.delay }
  | "alternative" => { action := strat.action, alternative := true }
  | "skip" => { action := "continue", skipped := true }
  | "stop" => { action := "rollback", stop := true }
  | _ => { action := "continue", unknown := true }

/-- `ErrorHandler.handleError`: records the failure first, then analyzes
(`canRetry`/`retryCount` are therefore computed on the count that already
includes this failure), decides and executes the strategy. -/
def handleError (toolName : String) (msg : String) (s : AgentState) :
    AgentState × ErrResult :=
  let s1 := recordFailedAttempt toolName msg s
  let canRetry := shouldRetry toolName s1
  let retryCount := getRetryCount toolName s1
  let critical := isCriticalError msg
  let strat := decideErrorHandling toolName critical canRetry retryCount
  (s1, executeErrorHandling strat)

/-! ## DecisionEngine (`src/agent/decision/DecisionEngine.js`) -/

/-- The decision object `{action, reasoning, confidence, expectedOutcome,
fallbackAction}`.  Confidence literals (`0.5`, `0.8`, ...) are modelled as
exact rationals; fields the code sometimes omits are `Option`s. -/
structure Decision where
  action : String
  reasoning : String
  confidence : ℚ
  expectedOutcome : Option String := none
  fallbackAction : Option String := none
  deriving DecidableEq, Repr

/-- `DecisionEngine.getFallbackDecision`: the deterministic rule-based
fallback, an if-chain over the state exactly as in the source. -/
def getFallbackDecision (s : AgentState) : Decision :=
  if s.phase == "initializing" then
    { action := "search", reasoning := "Start by finding strings", confidence := 6/10 }
  else if s.context.filesToProcess.length == 0 then
    { action := "search", reasoning := "Need to find files first", confidence := 7/10 }
  else if s.context.filesToProcess.length > 0 &&
      (!s.context.stringsFound.truthy || s.context.stringsFound.eqZero) then
    { action := "analyze", reasoning := "Have files but no strings - need to analyze files"
      confidence := 8/10 }
  else if s.phase == "searching" && s.context.stringsFound.gtZero then
    { action := "analyze", reasoning := "Analyze found strings", confidence := 8/10 }
  else if s.phase == "analyzing" && s.analysisResults.isSome then
    { action := "transform", reasoning := "Transform strings to t() calls", confidence := 8/10 }
  else if s.phase == "transforming" && s.transformResults.isSome then
    { action := "translate", reasoning := "Generate translations", confidence := 8/10 }
  else if s.phase == "translating" && s.translateResults.isSome then
    { action := "locale", reasoning := "Create locale files", confidence := 8/10 }
  else if s.phase == "locale" && s.localeResults.isSome then
    { action := "validate", reasoning := "Validate implementation", confidence := 8/10 }
  else if s.phase == "validating" then
    { action := "complete", reasoning := "Validation complete", confidence := 9/10 }
  else
    { action := "search", reasoning := "Default fallback", confidence := 5/10 }

/-! Regex models for `DecisionEngine.parseDecision`.  The two extraction
regexes of the source are implemented directly over character lists. -/

/-- The match of `/\x7b[\s\S]*\x7d/` (greedy): the substring from the first
opening brace through the last closing brace, when the two exist in that
order. -/
def extractBracesList (l : List Char) : Option (List Char) :=
  let fromBrace := l.dropWhile (fun c => c != Char.ofNat 123)
  let rev := fromBrace.reverse.dropWhile (fun c => c != Char.ofNat 125)
  if rev.isEmpty then none else some rev.reverse

def extractJsonBlock (s : String) : Option String :=
  (extractBracesList s.toList).map List.asString

/-- Character class `["\s]` of the extraction regexes. -/
def isQuoteOrSpace (c : Char) : Bool :=
  c == '"' || c.isWhitespace

/-- Character class `[a-z_]` under the `/i` flag. -/
def isActionChar (c : Char) : Bool :=
  ('a' ≤ c && c ≤ 'z') || ('A' ≤ c && c ≤ 'Z') || c == '_'

/-- Case-insensitive literal match at the head of the list. -/
def listStartsWithCI (pat l : List Char) : Bool :=
  listStartsWithBy charEqCI pat l

/-- Attempt of `/action["\s]*:["\s]*([a-z_]+)/i` anchored at the head:
after the literal `action`, a run of quotes/whitespace, a colon, another
run, then a non-empty capture of `[a-z_]` characters. -/
def tryMatchActionAt (l : List Char) : Option (List Char) :=
  if listStartsWithCI "action".toList l then
    let rest := (l.drop 6).dropWhile isQuoteOrSpace
    match rest with
    | ':' :: rest2 =>
      let cap := (rest2.dropWhile isQuoteOrSpace).takeWhile isActionChar
      if cap.isEmpty then none else some cap
    | _ => none
  else none

/-- Leftmost match of the action regex over the whole list. -/
def findActionMatch : List Char → Option (List Char)
  | [] => none
  | c :: cs =>
    match tryMatchActionAt (c :: cs) with
    | some cap => some cap
    | none => findActionMatch cs

def matchAction (s : String) : Option String :=
  (findActionMatch s.toList).map List.asString

/-- `([^"]+)"`: a non-empty run of non-quote characters closed by a quote. -/
def parseQuotedCapture (l : List Char) : Option (List Char) :=
  let cap := l.takeWhile (fun c => c != '"')
  if cap.isEmpty then none
  else match l.drop cap.length with
    | '"' :: _ => some cap
    | _ => none

/-- `["\s]*"([^"]+)"` with the greedy, backtracking `["\s]*`: prefer to
consume a quote/space character and match further right; on failure fall
back to using a consumed `"` as the opening literal quote. -/
def tryQuoteCapture : List Char → Option (List Char)
  | [] => none
  | c :: rest =>
    if isQuoteOrSpace c then
      match tryQuoteCapture rest with
      | some cap => some cap
      | none => if c == '"' then parseQuotedCapture rest else none
    else none

/-- Attempt of `/reasoning["\s]*:["\s]*"([^"]+)"/i` anchored at the head. -/
def tryMatchReasoningAt (l : List Char) : Option (List Char) :=
  if listStartsWithCI "reasoning".toList l then
    let rest := (l.drop 9).dropWhile isQuoteOrSpace
    match rest with
    | ':' :: rest2 => tryQuoteCapture rest2
    | _ => none
  else none

def findReasoningMatch : List Char → Option (List Char)
  | [] => none
  | c :: cs =>
    match tryMatchReasoningAt (c :: cs) with
    | some cap => some cap
    | none => findReasoningMatch cs

def matchReasoning (s : String) : Option String :=
  (findReasoningMatch s.toList).map List.asString

/-- `DecisionEngine.parseDecision`.  `JSON.parse` is external library code;
it is abstracted as a parameter `jp` returning the parsed decision object or
`none` when the parse throws (the thrown error is caught by the source and
falls through to the regex extraction).  When no brace block is found the
`try` block falls through without parsing.  The final fallback builds the
default decision from the two regex matches. -/
def parseDecision (jp : String → Option Decision) (response : String) : Decision :=
  let viaJson :=
    match extractJsonBlock response with
    | some block => jp block
    | none => none
  match viaJson with
  | some d => d
  | none =>
    { action := (matchAction response).getD "search"
      reasoning := (matchReasoning response).getD "Fallback decision"
      confidence := 5/10
      expectedOutcome := some "Continue workflow"
      fallbackAction := some "retry" }

/-! ## AutonomousAgent (`src/agent/autonomous-i18n-agent.js`): the
orchestration loop.  The oracle's decisions and the tools' outcomes are
adversarial inputs; `restored` tracks whether `RollbackTool.execute` has
run (the restore-from-snapshot side effect). -/

/-- The agent-level run state: the `StateManager` state plus the observable
file-system side effect of the rollback tool. -/
structure RunState where
  st : AgentState
  restored : Bool := false

/-- The outcome of one tool `execute()` call: a returned result object or a
thrown error message. -/
inductive ToolOutcome
  | ok (r : ToolResult)
  | err (msg : String)

/-- What `executeAction` hands back to the loop: the tool's result object on
the success path, or (on the catch path) the object returned by
`ErrorHandler.handleError`. -/
inductive ActionResult
  | toolRes (r : ToolResult)
  | errRes (e : ErrResult)
  deriving DecidableEq, Repr

/-- The `{action: 'retry', success: true}` object of `executeRetry` and the
`{action: 'complete', success: true}` object of `executeComplete`, and the
rollback result object, seen through the fields the loop reads. -/
def plainSuccessResult : ToolResult := { success := true }

/-- The phase set by each `executeX` wrapper before running its tool. -/
def phaseFor (action : String) : String :=
  match action with
  | "search" => "searching"
  | "analyze" => "analyzing"
  | "organize" => "organizing"
  | "transform" => "transforming"
  | "translate" => "translating"
  | "locale" => "locale"
  | "setup" => "setup"
  | "integrate" => "integration"
  | "validate" => "validating"
  | "test" => "testing"
  | "report" => "reporting"
  | _ => ""

/-- Where each `executeX` wrapper stores its tool result via `updateState`
(`organize`, `test` and `report` store nothing). -/
def storeResult (action : String) (r : ToolResult) (s : AgentState) : AgentState :=
  match action with
  | "search" => { s with searchResults := some r }
  | "analyze" => { s with analysisResults := some r }
  | "transform" => { s with transformResults := some r }
  | "translate" => { s with translateResults := some r }
  | "locale" => { s with localeResults := some r }
  | "setup" => { s with setupResults := some r }
  | "integrate" => { s with integrateResults := some r }
  | "validate" => { s with validateResults := some r }
  | _ => s

/-- The result of the `try` block of `executeAction` (the `switch`):
either a normal return or a thrown error to be caught. -/
inductive ExecOutcome
  | done (rs : RunState) (r : ToolResult)
  | threw (rs : RunState) (msg : String)

/-- The `switch` of `executeAction`: dispatch on the action name.  Standard
tools set their phase, run the tool (which may throw), store the result and
append the completed task; `retry`, `rollback` and `complete` have their
dedicated wrappers; an unknown action throws `Unknown action: ...`. -/
def attemptExec (action : String) (out : ToolOutcome) (rs : RunState) : ExecOutcome :=
  match action with
  | "retry" => .done rs plainSuccessResult
  | "rollback" =>
    let rs1 : RunState := { rs with restored := true }
    .done { rs1 with st := setPhase "failed" rs1.st } plainSuccessResult
  | "complete" =>
    .done { rs with st := setPhase "completed" rs.st } plainSuccessResult
  | a =>
    if phaseFor a == "" then
      .threw rs ("Unknown action: " ++ a)
    else
      let rs1 : RunState := { rs with st := setPhase (phaseFor a) rs.st }
      match out with
      | .ok r =>
        .done { rs1 with st := addCompletedTask a (storeResult a r rs1.st) } r
      | .err msg => .threw rs1 msg

/-- `AutonomousAgent.executeAction`: the `switch` inside a `try`; a thrown
error is caught and `handleError(action, error)`'s result object is returned
as the action's result. -/
def executeActionModel (action : String) (out : ToolOutcome) (rs : RunState) :
    RunState × ActionResult :=
  match attemptExec action out rs with
  | .done rs1 r => (rs1, .toolRes r)
  | .threw rs1 msg =>
    let (st1, er) := handleError action msg rs1.st
    ({ rs1 with st := st1 }, .errRes er)

/-- `AutonomousAgent.updateStateFromResult`: merges `files`, `stringsFound`
and `issues` of the result object into the context (the error-result object
of the catch path has none of these fields). -/
def updateStateFromResult (res : ActionResult) (s : AgentState) : AgentState :=
  match res with
  | .errRes _ => s
  | .toolRes r =>
    let s1 := match r.files with
      | some fs => { s with context := { s.context with filesToProcess := fs } }
      | none => s
    let s2 := if r.stringsFound != 0 then
        { s1 with context := { s1.context with stringsFound := SFVal.num r.stringsFound } }
      else s1
    match r.issues with
    | some is => { s2 with context := { s2.context with issues := is } }
    | none => s2

/-- `AutonomousAgent.isGoalAchieved`: the goal predicate over the stored
tool results. -/
def agentGoal (s : AgentState) : Bool :=
  (match s.transformResults with | some r => r.filesTransformed > 0 | none => false) &&
  (match s.translateResults with | some r => r.stringsTranslated > 0 | none => false) &&
  (match s.validateResults with | some r => r.validFiles > 0 | none => false)

/-- One loop iteration's input: a normal iteration (the oracle's decided
action and the dispatched tool's outcome) or an exception escaping to the
loop's `catch` (e.g. from `decideNextAction`); `now` is the elapsed
wall-clock milliseconds observed at the loop head. -/
inductive IterInput
  | normal (action : String) (out : ToolOutcome) (now : Nat)
  | raise (msg : String) (now : Nat)

def IterInput.now : IterInput → Nat
  | .normal _ _ n => n
  | .raise _ n => n

/-- Observation record for one executed iteration: the elapsed time at its
start, the decided action (`none` when the decision step threw), and the
value of the goal predicate after the iteration's state updates. -/
structure IterLog where
  now : Nat
  action : Option String
  goalAfter : Bool
  deriving DecidableEq, Repr

/-- The body of one `while` iteration of `runMainLoop`: the `try` branch
(decide, execute, merge, goal check) or the `catch` branch (handle, then
`stop` breaks, a `rollback` action restores and breaks).  Returns the new
run state, whether the loop `break`s, and the observation record. -/
def loopIter (inp : IterInput) (rs : RunState) : RunState × Bool × IterLog :=
  match inp with
  | .raise msg now =>
    let (st1, er) := handleError "main_loop" msg rs.st
    let rs1 : RunState := { rs with st := st1 }
    let log : IterLog := { now := now, action := none, goalAfter := agentGoal rs1.st }
    if er.stop then (rs1, true, log)
    else if er.action == "rollback" then ({ rs1 with restored := true }, true, log)
    else (rs1, false, log)
  | .normal action out now =>
    let (rs1, ares) := executeActionModel action out rs
    let rs2 : RunState := { rs1 with st := updateStateFromResult ares rs1.st }
    let log : IterLog := { now := now, action := some action, goalAfter := agentGoal rs2.st }
    if agentGoal rs2.st then
      ({ rs2 with st := setPhase "completed" rs2.st }, true, log)
    else (rs2, false, log)

/-- The loop configuration of the `AutonomousAgent` constructor. -/
structure LoopConfig where
  maxIterations : Nat
  timeout : Nat

def defaultConfig : LoopConfig := { maxIterations := 50, timeout := 300000 }

/-- `AutonomousAgent.runMainLoop`: while not `shouldStop()` and below
`maxIterations`, break when the elapsed time exceeds the timeout, otherwise
count the iteration and run the body.  The input list supplies the
environment of each potential iteration; the returned list logs the
iterations whose body actually ran. -/
def runLoop (cfg : LoopConfig) (rs : RunState) (iterations : Nat) :
    List IterInput → RunState × List IterLog
  | [] => (rs, [])
  | inp :: rest =>
    if shouldStop rs.st || cfg.maxIterations ≤ iterations then (rs, [])
    else if cfg.timeout < inp.now then (rs, [])
    else
      match loopIter inp rs with
      | (rs1, true, log) => (rs1, [log])
      | (rs1, false, log) =>
        let (rsF, logs) := runLoop cfg rs1 (iterations + 1) rest
        (rsF, log :: logs)

/-- The state right after `AutonomousAgent.initialize()`: target language
and goal set, backup created, `phase = 'analyzing'`. -/
def initializedState : AgentState :=
  { initialState with
    targetLanguage := "es"
    currentGoal := some "Internationalize the React application"
    phase := "analyzing" }

def initRunState : RunState := { st := initializedState }

/-- The whole of `runMainLoop` from the initialized state. -/
def runMainLoop (cfg : LoopConfig) (inputs : List IterInput) : RunState × List IterLog :=
  runLoop cfg initRunState 0 inputs

/-! ## RollbackTool (`src/agent/tools/RollbackTool.js`) — the restore
operation over a file-system model.  The working tree is a map from paths to
contents (`none` = file absent); the backup is the manifest of captured
files with their snapshot contents (the files found under `backupDir`,
paths relativized by `getOriginalPath`). -/

def FileSys := String → Option String

/-- One restore step: `fs.writeFileSync(originalPath, backupContent)`. -/
def writeFile (p c : String) (fs : FileSys) : FileSys :=
  fun q => if q = p then some c else fs q

/-- `RollbackTool.execute`'s restore pass: for each captured file, read its
backup content and overwrite the original path.  Nothing else in the
working tree is touched (the subsequent cleanup removes only the backup
directory itself). -/
def restoreFiles (backup : List (String × String)) (fs : FileSys) : FileSys :=
  backup.foldl (fun acc pc => writeFile pc.1 pc.2 acc) fs

/-! ## StateManager.getState (`src/agent/state/StateManager.js`) — JS
reference semantics of the spread copy `{ ...this.state }`.

Primitive fields are copied by value, while each nested object
(`context`, `completedTasks`, `failedAttempts`, `memory`) is copied as a
*reference* into a shared heap.  `StateObj` is the object layout with
explicit references; `Heap` maps references to the nested objects. -/

structure StateObj where
  phase : String
  targetLanguage : String
  contextRef : Nat
  completedTasksRef : Nat
  failedAttemptsRef : Nat
  memoryRef : Nat
  deriving DecidableEq, Repr

structure Heap where
  ctxAt : Nat → Ctx
  tasksAt : Nat → List CompletedTask
  failsAt : Nat → List FailRec
  memoryAt : Nat → Memory

/-- `getState()`: `return { ...this.state }` — a fresh top-level object with
every field copied; copying a reference field shares the referenced object. -/
def getStateCopy (s : StateObj) : StateObj :=
  { phase := s.phase
    targetLanguage := s.targetLanguage
    contextRef := s.contextRef
    completedTasksRef := s.completedTasksRef
    failedAttemptsRef := s.failedAttemptsRef
    memoryRef := s.memoryRef }

/-- A caller mutating the nested context of an object it holds
(e.g. `copy.context.issues.push(...)` replacing the context's content):
a heap write through the object's context reference. -/
def writeCtxThrough (o : StateObj) (c : Ctx) (h : Heap) : Heap :=
  { h with ctxAt := fun r => if r = o.contextRef then c else h.ctxAt r }

/-- The manager's stored state as observed through the heap. -/
def storedContext (h : Heap) (s : StateObj) : Ctx :=
  h.ctxAt s.contextRef

/-! Concrete states and heaps used by individual counterexamples and
witnesses. -/

/-- A concrete stored-state object for the `getState` aliasing analysis. -/
def demoStateObj : StateObj :=
  { phase := "initializing", targetLanguage := "es"
    contextRef := 0, completedTasksRef := 1, failedAttemptsRef := 2, memoryRef := 3 }

/-- The heap in which `demoStateObj`'s nested objects live, with the fresh
context of the constructor. -/
def demoHeap : Heap :=
  { ctxAt := fun _ => initialState.context
    tasksAt := fun _ => []
    failsAt := fun _ => []
    memoryAt := fun _ => initialState.memory }

/-- The context after a caller mutates the object returned by `getState`
(for instance `getState().context.issues.push('mutated by caller')`). -/
def mutatedCtx : Ctx :=
  { initialState.context with issues := ["mutated by caller"] }

end Agent

namespace Agent

/-! ## Helper lemmas -/

theorem restoreFiles_not_mem (backup : List (String × String)) (fs : FileSys)
    (p : String) (hp : p ∉ backup.map Prod.fst) : restoreFiles backup fs p = fs p := by
  induction backup generalizing fs with
  | nil => rfl
  | cons hd tl ih =>
    simp only [List.map_cons, List.mem_cons, not_or] at hp
    simpa [restoreFiles, writeFile, hp.1] using ih (writeFile hd.1 hd.2 fs) hp.2

theorem restoreFiles_mem (backup : List (String × String)) (fs : FileSys)
    (p c : String) (hnd : (backup.map Prod.fst).Nodup) (hmem : (p, c) ∈ backup) :
    restoreFiles backup fs p = some c := by
  induction backup generalizing fs with
  | nil => cases hmem
  | cons hd tl ih =>
    simp only [List.map_cons, List.nodup_cons] at hnd
    rcases List.mem_cons.mp hmem with heq | htl
    · have hp : p ∉ tl.map Prod.fst := by
        subst heq; exact hnd.1
      have := restoreFiles_not_mem tl (writeFile hd.1 hd.2 fs) p hp
      subst heq
      simp [restoreFiles, writeFile] at this ⊢
      simp [this, writeFile]
    · simpa [restoreFiles] using ih (writeFile hd.1 hd.2 fs) hnd.2 htl

theorem phaseFor_ne_completed (a : String) : phaseFor a ≠ "completed" := by
  unfold phaseFor; split <;> decide

theorem storeResult_phase (a : String) (r : ToolResult) (s : AgentState) :
    (storeResult a r s).phase = s.phase := by
  unfold storeResult; split <;> rfl

theorem updateStateFromResult_frame (res : ActionResult) (s : AgentState) :
    (updateStateFromResult res s).phase = s.phase ∧
    (updateStateFromResult res s).transformResults = s.transformResults ∧
    (updateStateFromResult res s).translateResults = s.translateResults ∧
    (updateStateFromResult res s).validateResults = s.validateResults := by
  cases res with
  | errRes e => exact ⟨rfl, rfl, rfl, rfl⟩
  | toolRes r =>
    unfold updateStateFromResult
    rcases hf : r.files with _ | fs <;> rcases hi : r.issues with _ | is <;>
      by_cases hs : (r.stringsFound != 0) = true <;>
      simp [hf, hi, hs]

theorem updateStateFromResult_phase (res : ActionResult) (s : AgentState) :
    (updateStateFromResult res s).phase = s.phase :=
  (updateStateFromResult_frame res s).1

theorem updateStateFromResult_goal (res : ActionResult) (s : AgentState) :
    agentGoal (updateStateFromResult res s) = agentGoal s := by
  obtain ⟨-, h2, h3, h4⟩ := updateStateFromResult_frame res s
  unfold agentGoal
  rw [h2, h3, h4]

theorem handleError_phase (t m : String) (s : AgentState) :
    ((handleError t m s).1).phase = s.phase := rfl

theorem handleError_goal (t m : String) (s : AgentState) :
    agentGoal (handleError t m s).1 = agentGoal s := rfl

theorem handleError_results (t m : String) (s : AgentState) :
    (handleError t m s).1.transformResults = s.transformResults ∧
    (handleError t m s).1.translateResults = s.translateResults ∧
    (handleError t m s).1.validateResults = s.validateResults :=
  ⟨rfl, rfl, rfl⟩

theorem shouldStop_false_iff (s : AgentState) :
    shouldStop s = false ↔ (s.phase ≠ "completed" ∧ s.phase ≠ "failed") := by
  simp [shouldStop]

theorem attemptExec_phase (a : String) (out : ToolOutcome) (rs : RunState)
    (h : rs.st.phase ≠ "completed") :
    (∀ rs' r, attemptExec a out rs = .done rs' r → (rs'.st.phase = "completed" ↔ a = "complete")) ∧
    (∀ rs' m, attemptExec a out rs = .threw rs' m → rs'.st.phase ≠ "completed") := by
  unfold attemptExec
  split
  · constructor
    · intro rs' r heq; cases heq; simp [h]
    · intro rs' m heq; cases heq
  · constructor
    · intro rs' r heq; cases heq; simp [setPhase]
    · intro rs' m heq; cases heq
  · constructor
    · intro rs' r heq; cases heq; simp [setPhase]
    · intro rs' m heq; cases heq
  · rename_i h1 h2 h3
    split
    · constructor
      · intro rs' r heq; cases heq
      · intro rs' m heq; cases heq; exact h
    · rcases out with r | msg
      · constructor
        · intro rs' r' heq; cases heq
          simp only [addCompletedTask, storeResult_phase, setPhase]
          constructor
          · intro hc; exact absurd hc (phaseFor_ne_completed a)
          · intro hc; exact absurd (h3 hc) id
        · intro rs' m heq; cases heq
      · constructor
        · intro rs' r' heq; cases heq
        · intro rs' m heq; cases heq
          simpa [setPhase] using phaseFor_ne_completed a

theorem executeActionModel_phase (a : String) (out : ToolOutcome) (rs : RunState)
    (h : rs.st.phase ≠ "completed") :
    ((executeActionModel a out rs).1.st.phase = "completed") ↔ a = "complete" := by
  unfold executeActionModel
  obtain ⟨hd, ht⟩ := attemptExec_phase a out rs h
  rcases hA : attemptExec a out rs with ⟨rs', r⟩ | ⟨rs', m⟩
  · simpa using hd rs' r hA
  · have hph := ht rs' m hA
    simp only [handleError_phase]
    constructor
    · intro hc; exact absurd hc hph
    · intro hc
      subst hc
      simp [attemptExec] at hA

theorem loopIter_now (inp : IterInput) (rs : RunState) :
    ((loopIter inp rs).2.2).now = inp.now := by
  cases inp with
  | raise msg now =>
    simp only [loopIter]
    split
    · rfl
    · split <;> rfl
  | normal a out now =>
    simp only [loopIter]
    split <;> rfl

theorem loopIter_spec (inp : IterInput) (rs : RunState)
    (hph : rs.st.phase ≠ "completed") (hg : agentGoal rs.st = false) :
    ((loopIter inp rs).1.st.phase = "completed" ↔
      ((loopIter inp rs).2.2.action = some "complete" ∨ (loopIter inp rs).2.2.goalAfter = true)) ∧
    ((loopIter inp rs).2.1 = false → agentGoal (loopIter inp rs).1.st = false) := by
  cases inp with
  | raise msg now =>
    have hgp : agentGoal (handleError "main_loop" msg rs.st).1 = false := by
      rw [handleError_goal]; exact hg
    have hpp : (handleError "main_loop" msg rs.st).1.phase ≠ "completed" := by
      rw [handleError_phase]; exact hph
    simp only [loopIter]
    split
    · simp [hgp, hpp]
    · split <;> simp [hgp, hpp]
  | normal a out now =>
    rcases hE : executeActionModel a out rs with ⟨rs1, ares⟩
    have hphase := executeActionModel_phase a out rs hph
    rw [hE] at hphase
    simp only [loopIter, hE]
    by_cases hgoal : agentGoal (updateStateFromResult ares rs1.st) = true
    · simp [hgoal, setPhase]
    · simp only [Bool.not_eq_true] at hgoal
      simp [hgoal, updateStateFromResult_phase, hphase]

theorem runLoop_stop (cfg : LoopConfig) (rs : RunState) (k : Nat)
    (inputs : List IterInput) (h : shouldStop rs.st = true) :
    runLoop cfg rs k inputs = (rs, []) := by
  cases inputs with
  | nil => rfl
  | cons inp rest => simp [runLoop, h]

theorem runLoop_bounds (cfg : LoopConfig) (inputs : List IterInput) :
    ∀ (rs : RunState) (k : Nat),
      (runLoop cfg rs k inputs).2.length ≤ cfg.maxIterations - k ∧
      (∀ l ∈ (runLoop cfg rs k inputs).2, l.now ≤ cfg.timeout) := by
  induction inputs with
  | nil => intro rs k; simp [runLoop]
  | cons inp rest ih =>
    intro rs k
    simp only [runLoop]
    split
    · simp
    · split
      · simp
      · rename_i hguard htime
        have hk : k < cfg.maxIterations := by
          rcases Nat.lt_or_ge k cfg.maxIterations with h | h
          · exact h
          · exact absurd (by simp [Nat.le_of_lt_succ, h] : (shouldStop rs.st || cfg.maxIterations ≤ k) = true) hguard
        have hnow : inp.now ≤ cfg.timeout := by
          rcases le_or_lt inp.now cfg.timeout with h | h
          · exact h
          · exact absurd (by simpa using h) htime
        have hlog := loopIter_now inp rs
        rcases hL : loopIter inp rs with ⟨rs1, brk, log⟩
        rw [hL] at hlog
        cases brk with
        | true =>
          simp only [hL]
          constructor
          · simp; omega
          · intro l hl
            simp only [List.mem_singleton] at hl
            subst hl
            rw [hlog]; exact hnow
        | false =>
          obtain ⟨ih1, ih2⟩ := ih rs1 (k + 1)
          rcases hR : runLoop cfg rs1 (k + 1) rest with ⟨rsF, logs⟩
          rw [hR] at ih1 ih2
          simp only [hL, hR]
          constructor
          · simp at ih1 ⊢; omega
          · intro l hl
            rcases List.mem_cons.mp hl with h | h
            · subst h; rw [hlog]; exact hnow
            · exact ih2 l h

theorem runLoop_completed_iff (cfg : LoopConfig) (inputs : List IterInput) :
    ∀ (rs : RunState) (k : Nat), agentGoal rs.st = false →
      ((runLoop cfg rs k inputs).1.st.phase = "completed" ↔
        (rs.st.phase = "completed" ∨
          ∃ l ∈ (runLoop cfg rs k inputs).2,
            l.action = some "complete" ∨ l.goalAfter = true)) := by
  induction inputs with
  | nil => intro rs k hg; simp [runLoop]
  | cons inp rest ih =>
    intro rs k hg
    simp only [runLoop]
    split
    · simp
    · split
      · simp
      · rename_i hguard htime
        have hstop : shouldStop rs.st = false := by
          rcases Bool.eq_false_or_eq_true (shouldStop rs.st) with h | h
          · exact absurd (by simp [h] : (shouldStop rs.st || cfg.maxIterations ≤ k) = true) hguard
          · exact h
        obtain ⟨hph, -⟩ := (shouldStop_false_iff rs.st).mp hstop
        obtain ⟨hiff, hpres⟩ := loopIter_spec inp rs hph hg
        rcases hL : loopIter inp rs with ⟨rs1, brk, log⟩
        rw [hL] at hiff hpres
        cases brk with
        | true =>
          simp only [hL]
          simpa [hph] using hiff
        | false =>
          have hg1 : agentGoal rs1.st = false := hpres rfl
          have hrec := ih rs1 (k + 1) hg1
          rcases hR : runLoop cfg rs1 (k + 1) rest with ⟨rsF, logs⟩
          rw [hR] at hrec
          simp only [hL, hR]
          simp only [List.mem_cons, exists_eq_or_imp] at *
          constructor
          · intro hc
            rcases hrec.mp hc with h1 | h2
            · exact Or.inr (Or.inl (hiff.mp h1))
            · exact Or.inr (Or.inr h2)
          · intro hc
            rcases hc with h0 | hcond | h2
            · exact absurd h0 hph
            · exact hrec.mpr (Or.inl (hiff.mpr hcond))
            · exact hrec.mpr (Or.inr h2)

theorem storeResult_failedAttempts (a : String) (r : ToolResult) (s : AgentState) :
    (storeResult a r s).failedAttempts = s.failedAttempts := by
  unfold storeResult; split <;> rfl

theorem attemptExec_done_failedAttempts (a : String) (out : ToolOutcome) (rs : RunState) :
    ∀ rs' r, attemptExec a out rs = .done rs' r → rs'.st.failedAttempts = rs.st.failedAttempts := by
  unfold attemptExec
  split
  · intro rs' r heq; cases heq; rfl
  · intro rs' r heq; cases heq; rfl
  · intro rs' r heq; cases heq; rfl
  · split
    · intro rs' r heq; cases heq
    · rcases out with r0 | m
      · intro rs' r heq; cases heq
        simp [addCompletedTask, storeResult_failedAttempts, setPhase]
      · intro rs' r heq; cases heq

theorem phaseFor_ne_failed (a : String) : phaseFor a ≠ "failed" := by
  unfold phaseFor; split <;> decide

theorem attemptExec_goal (a : String) (out : ToolOutcome) (rs : RunState) :
    (∀ rs' r, attemptExec a out rs = .done rs' r → rs'.st.phase = "failed" →
      agentGoal rs'.st = agentGoal rs.st) ∧
    (∀ rs' m, attemptExec a out rs = .threw rs' m → agentGoal rs'.st = agentGoal rs.st) := by
  unfold attemptExec
  split
  · constructor
    · intro rs' r heq hph; cases heq; rfl
    · intro rs' m heq; cases heq
  · constructor
    · intro rs' r heq hph; cases heq; rfl
    · intro rs' m heq; cases heq
  · constructor
    · intro rs' r heq hph; cases heq; rfl
    · intro rs' m heq; cases heq
  · split
    · constructor
      · intro rs' r heq; cases heq
      · intro rs' m heq; cases heq; rfl
    · rcases out with r0 | m0
      · constructor
        · intro rs' r heq hph; cases heq
          exact absurd (by simpa [addCompletedTask, storeResult_phase, setPhase] using hph)
            (phaseFor_ne_failed a)
        · intro rs' m heq; cases heq
      · constructor
        · intro rs' r heq hph; cases heq
        · intro rs' m heq; cases heq; rfl

theorem executeActionModel_goal_failed (a : String) (out : ToolOutcome) (rs : RunState)
    (hph : (executeActionModel a out rs).1.st.phase = "failed") :
    agentGoal (executeActionModel a out rs).1.st = agentGoal rs.st := by
  obtain ⟨hdone, hthrew⟩ := attemptExec_goal a out rs
  unfold executeActionModel at hph ⊢
  rcases hA : attemptExec a out rs with ⟨rs1, r1⟩ | ⟨rs1, m1⟩
  · rw [hA] at hph
    exact hdone rs1 r1 hA hph
  · exact (handleError_goal a m1 rs1.st).trans (hthrew rs1 m1 hA)

theorem loopIter_raise_goal (m : String) (now : Nat) (rs : RunState) :
    agentGoal (loopIter (.raise m now) rs).1.st = agentGoal rs.st := by
  simp only [loopIter]
  split
  · exact handleError_goal _ _ _
  · split
    · exact handleError_goal _ _ _
    · exact handleError_goal _ _ _

theorem loopIter_normal_goal (a : String) (out : ToolOutcome) (now : Nat) (rs : RunState)
    (hbrk : (loopIter (.normal a out now) rs).2.1 = false) :
    agentGoal (loopIter (.normal a out now) rs).1.st = false := by
  rcases hE : executeActionModel a out rs with ⟨rs1, ares⟩
  simp only [loopIter, hE] at hbrk ⊢
  by_cases hg : agentGoal (updateStateFromResult ares rs1.st) = true
  · simp [hg] at hbrk
  · simp only [Bool.not_eq_true] at hg
    simp [hg]

theorem loopIter_failed_stable (a : String) (out : ToolOutcome) (now : Nat) (rs : RunState)
    (hg : agentGoal rs.st = false)
    (hph : (executeActionModel a out rs).1.st.phase = "failed") :
    (loopIter (.normal a out now) rs).1.st.phase = "failed" := by
  have hgoal := executeActionModel_goal_failed a out rs hph
  rcases hE : executeActionModel a out rs with ⟨rs1, ares⟩
  rw [hE] at hph hgoal
  dsimp only at hph hgoal
  have hg2 : agentGoal (updateStateFromResult ares rs1.st) = false := by
    rw [updateStateFromResult_goal, hgoal, hg]
  simp only [loopIter, hE]
  simp [hg2, updateStateFromResult_phase, hph]

theorem loopIter_completed_stable (a : String) (out : ToolOutcome) (now : Nat) (rs : RunState)
    (hph : (executeActionModel a out rs).1.st.phase = "completed") :
    (loopIter (.normal a out now) rs).1.st.phase = "completed" := by
  rcases hE : executeActionModel a out rs with ⟨rs1, ares⟩
  rw [hE] at hph
  dsimp only at hph
  simp only [loopIter, hE]
  by_cases hg : agentGoal (updateStateFromResult ares rs1.st) = true
  · simp [hg, setPhase]
  · simp only [Bool.not_eq_true] at hg
    simp [hg, updateStateFromResult_phase, hph]

theorem loopIter_raise_phase (m : String) (now : Nat) (rs : RunState) :
    (loopIter (.raise m now) rs).1.st.phase = rs.st.phase := by
  simp only [loopIter]
  split
  · exact handleError_phase _ _ _
  · split
    · exact handleError_phase _ _ _
    · exact handleError_phase _ _ _

/-! ## Claim theorems -/

/-- C1 (code bug): at the failing input — the search tool throwing
`EACCES: permission denied`, a critical error — the error policy does
return strategy `stop` with next action `rollback`, but the orchestration
loop neither restores the snapshot nor ends the run with phase `failed`:
`executeAction`'s catch swallows the stop result and the loop keeps
iterating (log length 2, `restored = false`, final phase from the next
tool), and an error reaching the main-loop catch breaks on `stop` before
the (dead) rollback branch, again with no restore and a non-`failed`
phase. -/
theorem C1_critical_error_no_rollback :
    isCriticalError "EACCES: permission denied" = true ∧
    (decideErrorHandling "search" true true 1).strategy = "stop" ∧
    (decideErrorHandling "search" true true 1).action = "rollback" ∧
    (handleError "search" "EACCES: permission denied" initializedState).2 =
      { action := "rollback", stop := true } ∧
    (runMainLoop defaultConfig
      [IterInput.normal "search" (ToolOutcome.err "EACCES: permission denied") 0,
       IterInput.normal "analyze" (ToolOutcome.ok {}) 1]).2.length = 2 ∧
    (runMainLoop defaultConfig
      [IterInput.normal "search" (ToolOutcome.err "EACCES: permission denied") 0,
       IterInput.normal "analyze" (ToolOutcome.ok {}) 1]).1.restored = false ∧
    (runMainLoop defaultConfig
      [IterInput.normal "search" (ToolOutcome.err "EACCES: permission denied") 0,
       IterInput.normal "analyze" (ToolOutcome.ok {}) 1]).1.st.phase = "analyzing" ∧
    (runMainLoop defaultConfig [IterInput.raise "EACCES: permission denied" 0]).1.restored = false ∧
    (runMainLoop defaultConfig [IterInput.raise "EACCES: permission denied" 0]).1.st.phase ≠ "failed" := by
  decide

/-- C3 counterexample: restoring the snapshot rewrites every captured file
to its snapshot content, but a file created after the snapshot (not in the
manifest) is left in place, not deleted — refuting the deletion clause of
the claim. -/
theorem C3_counterexample :
    restoreFiles [("components/Header.jsx", "original content")]
      (fun p => if p = "components/Header.jsx" then some "mutated"
        else if p = "locales/es/common.json" then some "created after snapshot" else none)
      "components/Header.jsx" = some "original content" ∧
    restoreFiles [("components/Header.jsx", "original content")]
      (fun p => if p = "components/Header.jsx" then some "mutated"
        else if p = "locales/es/common.json" then some "created after snapshot" else none)
      "locales/es/common.json" = some "created after snapshot" := by
  decide

/-- C3 (amended): for a snapshot with distinct captured paths, restore
leaves every captured file with exactly its captured content, and leaves
every path outside the manifest untouched — in particular files created
after the snapshot are left behind, not deleted. -/
theorem C3_restore_roundtrip (backup : List (String × String)) (fs : FileSys)
    (p c : String) (hnd : (backup.map Prod.fst).Nodup) :
    ((p, c) ∈ backup → restoreFiles backup fs p = some c) ∧
    (p ∉ backup.map Prod.fst → restoreFiles backup fs p = fs p) :=
  ⟨fun hm => restoreFiles_mem backup fs p c hnd hm,
   fun hp => restoreFiles_not_mem backup fs p hp⟩

/-- C3 witness: a concrete captured file is restored to its captured
content. -/
theorem C3_restore_roundtrip_witness :
    restoreFiles [("a.txt", "alpha")] (fun _ => none) "a.txt" = some "alpha" :=
  (C3_restore_roundtrip [("a.txt", "alpha")] (fun _ => none) "a.txt" "alpha" (by decide)).1
    (by decide)

/-- C4 counterexample: the very first non-critical failure of a tool is
answered with a retry delay of 2000 ms, not the 1000 ms the claimed
sequence `1000, 2000, 4000, 8000, 8000, ...` begins with (the failure is
recorded before the retry count is read, so the exponent starts at 1). -/
theorem C4_counterexample :
    isCriticalError "network timeout" = false ∧
    (initialState.failedAttempts "search").length = 0 ∧
    (handleError "search" "network timeout" initialState).2.retry = true ∧
    (handleError "search" "network timeout" initialState).2.slept = some 2000 ∧
    some (2000 : Nat) ≠ some 1000 := by
  decide

/-- C4 (amended): for a non-critical failure of tool T with n failures
already recorded, the policy first appends the new failure (count n+1);
while n+1 < 3 it returns retry with next action T and delay
min(1000·2^(n+1), 8000) — so the successive delays are 2000, 4000,
non-decreasing and capped — and from the third recorded failure on it
returns alternative with next action the pipeline successor of T, the
count being exactly the retry maximum at the first alternative. -/
theorem C4_retry_policy (tool msg : String) (s : AgentState)
    (hcrit : isCriticalError msg = false) (hmax : s.maxRetries = 3) :
    ((handleError tool msg s).1.failedAttempts tool).length =
      (s.failedAttempts tool).length + 1 ∧
    ((s.failedAttempts tool).length + 1 < 3 →
      (handleError tool msg s).2 =
        { action := tool, retry := true,
          slept := some (min (1000 * 2 ^ ((s.failedAttempts tool).length + 1)) 8000) }) ∧
    (3 ≤ (s.failedAttempts tool).length + 1 →
      (handleError tool msg s).2 =
        { action := getAlternativeAction tool, alternative := true }) ∧
    min (1000 * 2 ^ ((s.failedAttempts tool).length + 1)) 8000 ≤
      min (1000 * 2 ^ ((s.failedAttempts tool).length + 2)) 8000 := by
  have hlen : ((recordFailedAttempt tool msg s).failedAttempts tool).length =
      (s.failedAttempts tool).length + 1 := by
    simp [recordFailedAttempt]
  refine ⟨?_, ?_, ?_, ?_⟩
  · simpa [handleError] using hlen
  · intro hlt
    simp [handleError, recordFailedAttempt, shouldRetry, getRetryCount,
      decideErrorHandling, executeErrorHandling, calculateRetryDelay, hcrit, hmax, hlt]
  · intro hge
    have hnlt : ¬ ((s.failedAttempts tool).length + 1 < 3) := by omega
    have h2le : 2 ≤ (s.failedAttempts tool).length := by omega
    simp [handleError, recordFailedAttempt, shouldRetry, getRetryCount,
      decideErrorHandling, executeErrorHandling, calculateRetryDelay,
      hcrit, hmax, hnlt, hge, h2le]
  · refine min_le_min ?_ le_rfl
    refine Nat.mul_le_mul_left 1000 ?_
    exact Nat.pow_le_pow_right (by norm_num) (by omega)

/-- C4 witness: the amended policy at the first failure of `search`. -/
theorem C4_retry_policy_witness :
    (handleError "search" "network timeout" initialState).2 =
      { action := "search", retry := true,
        slept := some (min (1000 * 2 ^ ((initialState.failedAttempts "search").length + 1)) 8000) } :=
  (C4_retry_policy "search" "network timeout" initialState (by decide) rfl).2.1 (by decide)

/-- C7 counterexample: after a recorded failure of `search`, a successful
execution of `search` leaves `failedAttempts['search']` unchanged and
non-empty — nothing ever clears it, refuting the reset-on-success clause. -/
theorem C7_counterexample :
    (executeActionModel "search" (ToolOutcome.ok {})
      { st := recordFailedAttempt "search" "boom" initialState }).1.st.failedAttempts "search" =
      [{ error := "boom", phase := "initializing" }] ∧
    ([{ error := "boom", phase := "initializing" }] : List FailRec) ≠ [] := by
  decide

/-- C7 (amended): `failedAttempts[T]` only grows — each handled failure
appends exactly one record — and a successful tool execution (one whose
dispatch returns a tool result, not an error-handler result) leaves the
whole `failedAttempts` map unchanged; it is never cleared. -/
theorem C7_append_only (tool msg : String) (s : AgentState) (a : String)
    (out : ToolOutcome) (rs rs' : RunState) (r : ToolResult) :
    ((recordFailedAttempt tool msg s).failedAttempts tool =
      s.failedAttempts tool ++ [{ error := msg, phase := s.phase }]) ∧
    (executeActionModel a out rs = (rs', ActionResult.toolRes r) →
      rs'.st.failedAttempts = rs.st.failedAttempts) := by
  constructor
  · simp [recordFailedAttempt]
  · intro heq
    unfold executeActionModel at heq
    rcases hA : attemptExec a out rs with ⟨rs1, r1⟩ | ⟨rs1, m⟩
    · rw [hA] at heq
      dsimp only at heq
      injection heq with h1 h2
      subst h1
      exact attemptExec_done_failedAttempts a out rs _ r1 hA
    · rw [hA] at heq
      simp at heq

/-- C7 witness: a successful `search` run leaves the failure map unchanged. -/
theorem C7_append_only_witness :
    (executeActionModel "search" (ToolOutcome.ok {}) initRunState).1.st.failedAttempts =
      initRunState.st.failedAttempts :=
  (C7_append_only "search" "x" initialState "search" (ToolOutcome.ok {}) initRunState
    (executeActionModel "search" (ToolOutcome.ok {}) initRunState).1 {}).2 rfl

/-- C8 counterexample: `getState` returns only a shallow copy, so a caller
mutation through the copy's nested `context` changes the manager's stored
state — refuting the immutable-copy claim. -/
theorem C8_counterexample :
    storedContext (writeCtxThrough (getStateCopy demoStateObj) mutatedCtx demoHeap) demoStateObj =
      mutatedCtx ∧
    storedContext demoHeap demoStateObj ≠ mutatedCtx := by
  decide

/-- C8 (amended): `getState` returns a shallow copy — a fresh top-level
object whose primitive fields are copied but whose nested `context`,
`completedTasks`, `failedAttempts` and `memory` are shared by reference, so
any caller mutation through a nested structure of the copy is visible in
the stored state. -/
theorem C8_shallow_copy (s : StateObj) (h : Heap) (c : Ctx) :
    (getStateCopy s).contextRef = s.contextRef ∧
    (getStateCopy s).completedTasksRef = s.completedTasksRef ∧
    (getStateCopy s).failedAttemptsRef = s.failedAttemptsRef ∧
    (getStateCopy s).memoryRef = s.memoryRef ∧
    (getStateCopy s).phase = s.phase ∧
    storedContext (writeCtxThrough (getStateCopy s) c h) s = c := by
  refine ⟨rfl, rfl, rfl, rfl, rfl, ?_⟩
  simp [storedContext, writeCtxThrough, getStateCopy]

/-- C2 counterexample: an oracle decision of `complete` drives the loop to
phase `completed` while the goal predicate is false — refuting the
only-if direction of the claimed equivalence. -/
theorem C2_counterexample :
    (runMainLoop defaultConfig
      [IterInput.normal "complete" (ToolOutcome.ok {}) 0]).1.st.phase = "completed" ∧
    agentGoal (runMainLoop defaultConfig
      [IterInput.normal "complete" (ToolOutcome.ok {}) 0]).1.st = false := by
  decide

/-- C2 (amended): the run ends with phase `completed` exactly when some
executed iteration either runs the `complete` action or finishes with the
goal predicate `filesTransformed > 0 ∧ stringsTranslated > 0 ∧
validFiles > 0` true in state (the goal check then sets `completed`); the
goal predicate alone is sufficient but not necessary. -/
theorem C2_completed_characterization (cfg : LoopConfig) (inputs : List IterInput) :
    (runMainLoop cfg inputs).1.st.phase = "completed" ↔
      ∃ l ∈ (runMainLoop cfg inputs).2, l.action = some "complete" ∨ l.goalAfter = true := by
  have h := runLoop_completed_iff cfg inputs initRunState 0 (by decide)
  rw [runMainLoop]
  constructor
  · intro hc
    rcases h.mp hc with h0 | h1
    · exact absurd h0 (by decide)
    · exact h1
  · intro he
    exact h.mpr (Or.inr he)

/-- C2 witness: the characterization applied to a concrete run reaching
`completed` through the `complete` action. -/
theorem C2_completed_characterization_witness :
    (runMainLoop defaultConfig
      [IterInput.normal "complete" (ToolOutcome.ok {}) 0]).1.st.phase = "completed" :=
  (C2_completed_characterization defaultConfig
    [IterInput.normal "complete" (ToolOutcome.ok {}) 0]).mpr
    ⟨{ now := 0, action := some "complete", goalAfter := false }, by decide, by decide⟩

/-- C5: for any decision/outcome sequence the loop executes at most
`maxIterations` iterations, no iteration body begins once the elapsed time
exceeds `timeout`, and the defaults are 50 iterations and 300000 ms. -/
theorem C5_termination (cfg : LoopConfig) (inputs : List IterInput) :
    (runMainLoop cfg inputs).2.length ≤ cfg.maxIterations ∧
    (∀ l ∈ (runMainLoop cfg inputs).2, l.now ≤ cfg.timeout) ∧
    defaultConfig.maxIterations = 50 ∧ defaultConfig.timeout = 300000 := by
  obtain ⟨h1, h2⟩ := runLoop_bounds cfg inputs initRunState 0
  exact ⟨by simpa using h1, h2, rfl, rfl⟩

/-- C5 witness: the iteration bound at a concrete run. -/
theorem C5_termination_witness :
    (runMainLoop defaultConfig [IterInput.normal "search" (ToolOutcome.ok {}) 0]).2.length ≤ 50 :=
  (C5_termination defaultConfig [IterInput.normal "search" (ToolOutcome.ok {}) 0]).1

/-- C6: terminal phases are stable in every reachable state of the loop.
`shouldStop` is true exactly when the phase is `completed` or `failed`,
and a terminal phase at an iteration boundary stops the loop, so no later
iteration runs.  Reachable boundary states satisfy the invariant that the
goal predicate is false: it holds at the initialized state and is
preserved by every non-breaking iteration (a goal-completing iteration
always reaches the goal check and breaks with `completed`).  Under that
invariant, no step inside an iteration moves a terminal phase to another
value: a phase set to `failed` by the rollback action survives the
subsequent goal check, a phase set to `completed` stays `completed`, and
an iteration whose decision step throws never changes the phase at all. -/
theorem C6_terminal_phase_stability (s : AgentState) (cfg : LoopConfig)
    (rs : RunState) (k : Nat) (inputs : List IterInput) (inp : IterInput)
    (a m : String) (out : ToolOutcome) (now : Nat) :
    (shouldStop s = true ↔ (s.phase = "completed" ∨ s.phase = "failed")) ∧
    (shouldStop rs.st = true → runLoop cfg rs k inputs = (rs, [])) ∧
    agentGoal initRunState.st = false ∧
    (agentGoal rs.st = false → (loopIter inp rs).2.1 = false →
      agentGoal (loopIter inp rs).1.st = false) ∧
    (agentGoal rs.st = false →
      (executeActionModel a out rs).1.st.phase = "failed" →
      (loopIter (.normal a out now) rs).1.st.phase = "failed") ∧
    ((executeActionModel a out rs).1.st.phase = "completed" →
      (loopIter (.normal a out now) rs).1.st.phase = "completed") ∧
    ((loopIter (.raise m now) rs).1.st.phase = rs.st.phase) := by
  refine ⟨by simp [shouldStop], runLoop_stop cfg rs k inputs, rfl, ?_,
    loopIter_failed_stable a out now rs, loopIter_completed_stable a out now rs,
    loopIter_raise_phase m now rs⟩
  intro hg hbrk
  cases inp with
  | raise m' now' => rw [loopIter_raise_goal]; exact hg
  | normal a' out' now' => exact loopIter_normal_goal a' out' now' rs hbrk

/-- C6 witness: an iteration executing the rollback action from the
initialized state (goal predicate false) ends with phase `failed`, not
overwritten by the goal check. -/
theorem C6_terminal_phase_stability_witness :
    (loopIter (IterInput.normal "rollback" (ToolOutcome.ok {}) 0) initRunState).1.st.phase =
      "failed" :=
  (C6_terminal_phase_stability initialState defaultConfig initRunState 0 []
    (IterInput.normal "rollback" (ToolOutcome.ok {}) 0) "rollback" "boom"
    (ToolOutcome.ok {}) 0).2.2.2.2.1 (by decide) (by decide)

/-- C9: the deterministic decision fallback is a total function of the
state — for every state it returns a decision whose action is non-empty
(one of the seven pipeline actions), and identical states yield the
identical action. -/
theorem C9_fallback_total_deterministic (s t : AgentState) (h : s = t) :
    (getFallbackDecision s).action = (getFallbackDecision t).action ∧
    (getFallbackDecision s).action ≠ "" ∧
    (getFallbackDecision s).action ∈
      ["search", "analyze", "transform", "translate", "locale", "validate", "complete"] := by
  subst h
  constructor
  · rfl
  unfold getFallbackDecision
  split_ifs <;> exact (by decide)

/-- C9 witness: the fallback at the constructor state. -/
theorem C9_fallback_witness :
    (getFallbackDecision initialState).action ≠ "" :=
  (C9_fallback_total_deterministic initialState initialState rfl).2.1

/-- C10: `parseDecision` is total over oracle responses by construction
(every path returns a decision object); when brace extraction or the JSON
parse fails and both regex extractions also fail, it returns exactly the
default decision with action `search`, confidence 0.5 and fallback action
`retry`. -/
theorem C10_parse_decision_fallback (jp : String → Option Decision) (response : String)
    (hjson : ∀ block, extractJsonBlock response = some block → jp block = none)
    (haction : matchAction response = none)
    (hreason : matchReasoning response = none) :
    parseDecision jp response =
      { action := "search", reasoning := "Fallback decision", confidence := 5/10,
        expectedOutcome := some "Continue workflow", fallbackAction := some "retry" } := by
  unfold parseDecision
  rcases hE : extractJsonBlock response with _ | block
  · simp [haction, hreason]
  · simp [hjson block hE, haction, hreason]

/-- C10 witness: the default decision on a response with no braces and no
extractable fields, under a parser that rejects everything. -/
theorem C10_parse_decision_fallback_witness :
    parseDecision (fun _ => none) "The model failed to answer" =
      { action := "search", reasoning := "Fallback decision", confidence := 5/10,
        expectedOutcome := some "Continue workflow", fallbackAction := some "retry" } :=
  C10_parse_decision_fallback (fun _ => none) "The model failed to answer"
    (fun _ _ => rfl) (by decide) (by decide)

end Agent
